import Mathlib

/-!
# Verification of the automation backend's event router and escalation scheduler

Shallow embedding of `src/controllers/webhook.controller.ts` and the service
modules it calls (`jira.service.ts`, `ai.service.ts`, `slack.service.ts`).

Conventions of the embedding:
* JavaScript strings are `List Char` (`Str`); raw request bodies are hashed over
  their UTF-8 bytes, as Node's `Buffer.from` does.
* External collaborators (Jira REST, Slack Web API, the Gemini model) are
  passed in as environments of `Except`-returning functions; a handler's
  observable behaviour is the list of completed outbound effects (`Action`)
  plus how it responded / what escaped uncaught.
* `crypto.createHmac('sha256', …)` is embedded as a full executable
  HMAC-SHA256 over byte lists (FIPS 180-4 / RFC 2104).
-/

namespace AutomationBackend

abbrev Str := List Char

/-! ## Bytes and UTF-8 (Node `Buffer.from(string)`) -/

/-- UTF-8 encoding of a single character, as `Buffer.from` performs it. -/
def utf8EncodeChar (c : Char) : List Nat :=
  let n := c.toNat
  if n < 128 then [n]
  else if n < 2048 then [192 ||| (n >>> 6), 128 ||| (n &&& 63)]
  else if n < 65536 then
    [224 ||| (n >>> 12), 128 ||| ((n >>> 6) &&& 63), 128 ||| (n &&& 63)]
  else
    [240 ||| (n >>> 18), 128 ||| ((n >>> 12) &&& 63),
     128 ||| ((n >>> 6) &&& 63), 128 ||| (n &&& 63)]

/-- The UTF-8 byte sequence of a string, i.e. `Buffer.from(s)`. -/
def utf8Bytes (s : Str) : List Nat := s.flatMap utf8EncodeChar

/-! ## SHA-256 (FIPS 180-4), executable over byte lists -/

/-- 32-bit modular addition. -/
def add32 (a b : Nat) : Nat := (a + b) % 4294967296

/-- Rotate a 32-bit word right by `n` places. -/
def rotr32 (n x : Nat) : Nat :=
  ((x >>> n) ||| (x <<< (32 - n))) % 4294967296

/-- Bitwise complement of a 32-bit word. -/
def not32 (x : Nat) : Nat := x ^^^ 4294967295

def ch32 (x y z : Nat) : Nat := (x &&& y) ^^^ (not32 x &&& z)

def maj32 (x y z : Nat) : Nat := (x &&& y) ^^^ (x &&& z) ^^^ (y &&& z)

def bigSigma0 (x : Nat) : Nat := rotr32 2 x ^^^ rotr32 13 x ^^^ rotr32 22 x

def bigSigma1 (x : Nat) : Nat := rotr32 6 x ^^^ rotr32 11 x ^^^ rotr32 25 x

def smallSigma0 (x : Nat) : Nat := rotr32 7 x ^^^ rotr32 18 x ^^^ (x >>> 3)

def smallSigma1 (x : Nat) : Nat := rotr32 17 x ^^^ rotr32 19 x ^^^ (x >>> 10)

/-- The 64 round constants K of SHA-256 (cube-root fractional parts of the
first 64 primes), written in decimal. -/
def K256 : List Nat :=
  [1116352408, 1899447441, 3049323471, 3921009573,
   961987163, 1508970993, 2453635748, 2870763221,
   3624381080, 310598401, 607225278, 1426881987,
   1925078388, 2162078206, 2614888103, 3248222580,
   3835390401, 4022224774, 264347078, 604807628,
   770255983, 1249150122, 1555081692, 1996064986,
   2554220882, 2821834349, 2952996808, 3210313671,
   3336571891, 3584528711, 113926993, 338241895,
   666307205, 773529912, 1294757372, 1396182291,
   1695183700, 1986661051, 2177026350, 2456956037,
   2730485921, 2820302411, 3259730800, 3345764771,
   3516065817, 3600352804, 4094571909, 275423344,
   430227734, 506948616, 659060556, 883997877,
   958139571, 1322822218, 1537002063, 1747873779,
   1955562222, 2024104815, 2227730452, 2361852424,
   2428436474, 2756734187, 3204031479, 3329325298]

/-- Working state: eight 32-bit words. -/
structure H8 where
  a : Nat
  b : Nat
  c : Nat
  d : Nat
  e : Nat
  f : Nat
  g : Nat
  h : Nat
deriving DecidableEq, Repr

/-- The initial SHA-256 state (square-root fractional parts of the first
eight primes), in decimal. -/
def H0 : H8 :=
  ⟨1779033703, 3144134277, 1013904242, 2773480762,
   1359893119, 2600822924, 528734635, 1541459225⟩

/-- One compression round with round key `k` and schedule word `w`. -/
def roundStep (s : H8) (kw : Nat × Nat) : H8 :=
  let t1 := add32 (add32 (add32 s.h (bigSigma1 s.e)) (add32 (ch32 s.e s.f s.g) kw.1)) kw.2
  let t2 := add32 (bigSigma0 s.a) (maj32 s.a s.b s.c)
  ⟨add32 t1 t2, s.a, s.b, s.c, add32 s.d t1, s.e, s.f, s.g⟩

/-- Big-endian 32-bit words from bytes (4 bytes per word). -/
def bytesToWords : List Nat → List Nat
  | a :: b :: c :: d :: rest =>
      ((a <<< 24) ||| (b <<< 16) ||| (c <<< 8) ||| d) :: bytesToWords rest
  | _ => []

/-- Message-schedule extension, working on the reversed schedule so the
needed back-references are at fixed small indices. -/
def extendRev (rw : List Nat) : Nat → List Nat
  | 0 => rw
  | k + 1 =>
      extendRev
        (add32 (add32 (smallSigma1 (rw.getD 1 0)) (rw.getD 6 0))
               (add32 (smallSigma0 (rw.getD 14 0)) (rw.getD 15 0)) :: rw) k

/-- The 64-word message schedule from the 16 block words. -/
def sched (w16 : List Nat) : List Nat := (extendRev w16.reverse 48).reverse

/-- Compress one 64-byte block into the running state. -/
def compressBlock (s : H8) (block : List Nat) : H8 :=
  let t := ((K256.zip (sched (bytesToWords block))).foldl roundStep s)
  ⟨add32 s.a t.a, add32 s.b t.b, add32 s.c t.c, add32 s.d t.d,
   add32 s.e t.e, add32 s.f t.f, add32 s.g t.g, add32 s.h t.h⟩

/-- Big-endian 8-byte encoding of the bit length. -/
def lenBytes8 (n : Nat) : List Nat :=
  [(n >>> 56) &&& 255, (n >>> 48) &&& 255, (n >>> 40) &&& 255, (n >>> 32) &&& 255,
   (n >>> 24) &&& 255, (n >>> 16) &&& 255, (n >>> 8) &&& 255, n &&& 255]

/-- SHA-256 padding: `0x80`, zeros to 56 mod 64, then the 64-bit bit length. -/
def shaPad (msg : List Nat) : List Nat :=
  msg ++ 128 :: List.replicate ((64 - ((msg.length + 9) % 64)) % 64) 0
      ++ lenBytes8 (msg.length * 8)

/-- Fold the compression function over the 64-byte blocks. -/
def sha256Blocks (l : List Nat) (s : H8) : H8 :=
  if hne : l = [] then s
  else sha256Blocks (l.drop 64) (compressBlock s (l.take 64))
termination_by l.length
decreasing_by
  simp only [List.length_drop]
  have : 0 < l.length := List.length_pos.mpr hne
  omega

/-- The four big-endian bytes of a 32-bit word. -/
def toBytes4 (w : Nat) : List Nat :=
  [(w >>> 24) &&& 255, (w >>> 16) &&& 255, (w >>> 8) &&& 255, w &&& 255]

/-- SHA-256 of a byte list: the 32 digest bytes. -/
def sha256 (msg : List Nat) : List Nat :=
  let s := sha256Blocks (shaPad msg) H0
  toBytes4 s.a ++ toBytes4 s.b ++ toBytes4 s.c ++ toBytes4 s.d ++
  toBytes4 s.e ++ toBytes4 s.f ++ toBytes4 s.g ++ toBytes4 s.h

/-! ## HMAC-SHA256 (RFC 2104), as `crypto.createHmac('sha256', key)` -/

/-- HMAC-SHA256 over byte lists. -/
def hmacSha256 (key msg : List Nat) : List Nat :=
  let k0 := if 64 < key.length then sha256 key else key
  let kp := k0 ++ List.replicate (64 - k0.length) 0
  sha256 ((kp.map (fun b => b ^^^ 92)) ++ sha256 ((kp.map (fun b => b ^^^ 54)) ++ msg))

/-! ## Lowercase hex, as `.digest('hex')` -/

/-- One lowercase hex digit. -/
def hexDigit : Nat → Char
  | 0 => '0'
  | 1 => '1'
  | 2 => '2'
  | 3 => '3'
  | 4 => '4'
  | 5 => '5'
  | 6 => '6'
  | 7 => '7'
  | 8 => '8'
  | 9 => '9'
  | 10 => 'a'
  | 11 => 'b'
  | 12 => 'c'
  | 13 => 'd'
  | 14 => 'e'
  | 15 => 'f'
  | _ => '0'

/-- Lowercase hex rendering of a byte list. -/
def hexOfBytes (l : List Nat) : Str :=
  l.flatMap (fun b => [hexDigit ((b >>> 4) &&& 15), hexDigit (b &&& 15)])

/-- `'sha256=' + hmac.update(rawBody).digest('hex')`, the digest string the
GitHub handler computes from the shared secret and the raw body. -/
def digestHeader (secret rawBody : Str) : Str :=
  "sha256=".toList ++ hexOfBytes (hmacSha256 (utf8Bytes secret) (utf8Bytes rawBody))

/-! ## JavaScript string primitives used by the handlers -/

/-- ASCII lowercasing of one character; the handlers only lowercase ASCII
payload text (`toLowerCase`). -/
def lowerChar (c : Char) : Char :=
  if 'A' ≤ c ∧ c ≤ 'Z' then Char.ofNat (c.toNat + 32) else c

/-- `String.prototype.toLowerCase` on ASCII text. -/
def lowerStr (s : Str) : Str := s.map lowerChar

/-- Does `hay` begin with `needle`? -/
def startsWithL : Str → Str → Bool
  | [], _ => true
  | _ :: _, [] => false
  | x :: xs, y :: ys => x == y && startsWithL xs ys

/-- `hay.includes(needle)`: substring containment. -/
def containsSub (needle : Str) : Str → Bool
  | [] => startsWithL needle []
  | c :: rest => startsWithL needle (c :: rest) || containsSub needle rest

/-- JavaScript truthiness of an optional string (`undefined` and `''` are
falsy). -/
def truthyStrOpt : Option Str → Bool
  | none => false
  | some s => !s.isEmpty

/-- An optional string defaulted to `''` (the `x || ''` idiom). -/
def orEmpty (o : Option Str) : Str := o.getD []

/-! ## `crypto.timingSafeEqual`

Node's `timingSafeEqual` throws a `RangeError` when the two buffers differ in
byte length, and otherwise returns whether they are equal. -/

inductive JsError where
  | rangeError (msg : Str)
  | typeError (msg : Str)
  | jsError (msg : Str)
deriving DecidableEq, Repr

def timingSafeEqualMsg : Str := "Input buffers must have the same byte length".toList

def timingSafeEqual (a b : List Nat) : Except JsError Bool :=
  if a.length = b.length then .ok (a == b)
  else .error (.rangeError timingSafeEqualMsg)

/-! ## Ticket-key extraction (`extractJiraKey`)

The source matches `/([A-Z]{2,}-\d+)/` and takes the first (leftmost) match.
Because no shorter prefix of a maximal uppercase run can be followed by `'-'`
(the next character would be another uppercase letter), the regex engine's
backtracking never changes the outcome, and leftmost matching is a plain scan:
at each position, take the maximal uppercase run (length at least 2), require
`'-'`, then a nonempty maximal digit run. -/

def isUpperAZ (c : Char) : Bool := decide ('A' ≤ c) && decide (c ≤ 'Z')

def isDigit09 (c : Char) : Bool := decide ('0' ≤ c) && decide (c ≤ '9')

/-- Attempt to match `[A-Z]{2,}-\d+` starting at the head of `l`. -/
def matchKeyAt (l : Str) : Option Str :=
  let u := l.takeWhile isUpperAZ
  if 2 ≤ u.length then
    match l.drop u.length with
    | c :: rest =>
        if c = '-' then
          let d := rest.takeWhile isDigit09
          if 1 ≤ d.length then some (u ++ '-' :: d) else none
        else none
    | [] => none
  else none

/-- Leftmost match of the key pattern, scanning forward one character at a
time as the regex engine does. -/
def firstKeyMatch : Str → Option Str
  | [] => none
  | c :: rest =>
      match matchKeyAt (c :: rest) with
      | some m => some m
      | none => firstKeyMatch rest

/-- `extractJiraKey` from the webhook controller. -/
def extractJiraKey (text : Str) : Option Str := firstKeyMatch text

/-! ## Structured-mention extraction (`MENTION_REGEX.matchAll`)

The source iterates `commentBody.matchAll(/[[~]accountid:([a-f0-9\-:]+)]/g)`.
A match is one character from the class `[[~]`, the literal `accountid:`,
a nonempty run from `[a-f0-9\-:]` (captured), then `]`.  Since `']'` is not in
the capture class the greedy run never backtracks.  On a match the scan
resumes after the match (`matchAll` is non-overlapping); on failure it
advances one character, as the regex engine does. -/

def isMentionIdChar (c : Char) : Bool :=
  (decide ('a' ≤ c) && decide (c ≤ 'f')) || (decide ('0' ≤ c) && decide (c ≤ '9'))
    || c == '-' || c == ':'

/-- Strip an exact literal from the front of a string. -/
def dropLit : Str → Str → Option Str
  | [], r => some r
  | x :: xs, y :: ys => if x == y then dropLit xs ys else none
  | _ :: _, [] => none

/-- Attempt a mention match at the head of the string; on success, the
captured account id and the remainder after the closing `']'`. -/
def matchMentionAt : Str → Option (Str × Str)
  | [] => none
  | c :: rest =>
      if c == '[' || c == '~' then
        match dropLit "accountid:".toList rest with
        | some r2 =>
            let cap := r2.takeWhile isMentionIdChar
            if 1 ≤ cap.length then
              match r2.drop cap.length with
              | ']' :: r3 => some (cap, r3)
              | _ => none
            else none
        | none => none
      else none

/-- The scan of `matchAll`: resume after a match, advance one character after
a failed attempt.  The fuel argument only bounds the number of scan steps so
the recursion is structural; every step consumes at least one character of
the string, so `fuel = s.length` never runs out before the string does. -/
def allMentionsAux : Nat → Str → List Str
  | 0, _ => []
  | _, [] => []
  | fuel + 1, c :: rest =>
      match matchMentionAt (c :: rest) with
      | some pr => pr.1 :: allMentionsAux fuel pr.2
      | none => allMentionsAux fuel rest

/-- All captured account ids of the comment body, in order
(`[...body.matchAll(MENTION_REGEX)]`, first capture group of each match). -/
def allMentions (s : Str) : List Str := allMentionsAux s.length s

/-! ## Observable effects and external environments

A handler's downstream behaviour is the ordered list of outbound calls that
completed.  Calls that throw contribute the `console.error` of the enclosing
`catch` (`logError`) instead, and abort the flow at that point, exactly as the
`await` chains in the source do. -/

/-- A deferred escalation check: the closure state captured at registration
plus the `setTimeout` delay. -/
structure EscalationJob where
  ticketKey : Str
  baselineStatus : Str
  ticketUrl : Str
  author : Str
  delayMs : Nat
deriving DecidableEq, Repr

inductive Action where
  | updateTicketStatus (key status : Str)
  | addComment (key text : Str)
  | createTicket (projectKey summary description issueType : Str)
  | searchIssues (query : Str)
  | getTicketAssignee (key : Str)
  | getUserDetails (accountId : Str)
  | postMessage (channel text : Str)
  | sendDirectMessage (email text : Str)
  | scheduleEscalation (job : EscalationJob)
  | logError (msg : Str)
deriving DecidableEq, Repr

/-- Sequence one fallible external call: on success record its action and
continue; on failure abort with the error (for the enclosing `catch`). -/
def callStep {α : Type} (r : Except JsError α) (act : Action)
    (k : α → List Action × Option JsError) : List Action × Option JsError :=
  match r with
  | .error e => ([], some e)
  | .ok v =>
      let rest := k v
      (act :: rest.1, rest.2)

/-- `https://${process.env.JIRA_HOST}/browse/${key}`. -/
def ticketUrl (host key : Str) : Str :=
  "https://".toList ++ host ++ "/browse/".toList ++ key

/-! ## Fixed identifiers from the source -/

def BLOCKING_KEYWORDS : List Str :=
  ["blocked by".toList, "waiting on".toList, "cant proceed until".toList,
   "unblock please".toList]

def devChannelId : Str := "C07M6QXL71Q".toList

def supportChannelId : Str := "C0A1D39J9M3".toList

def updateChannelId : Str := "C0A1D39J9M3".toList

def FOUR_HOURS_IN_MS : Nat := 4 * 60 * 60 * 1000

/-! ## Slack handler (`handleSlackEvent`) -/

structure SlackInnerEvent where
  type : Str
  botId : Option Str
  text : Option Str
  channel : Str
deriving DecidableEq, Repr

structure SlackBody where
  type : Option Str
  challenge : Option Str
  event : Option SlackInnerEvent
deriving DecidableEq, Repr

/-- The bug-report shape `parseBugReport` returns. -/
structure BugDetails where
  summary : Str
  description : Str
  projectKey : Str
  issueType : Str
deriving DecidableEq, Repr

/-- The slice of the Jira create-issue response the handlers read
(`response.data.key`, `response.data.fields.summary`). -/
structure CreatedTicket where
  key : Str
  fieldsSummary : Str
deriving DecidableEq, Repr

structure SlackEnv where
  parseBugReport : Str → Except JsError BugDetails
  createTicket : BugDetails → Except JsError CreatedTicket
  postMessage : Str → Str → Except JsError Unit

def slackSuccessText (ticket : CreatedTicket) (bd : BugDetails) : Str :=
  "✅ Bug reported! Jira Ticket Created: *".toList ++ ticket.key
    ++ "*\nSummary: ".toList ++ bd.summary

def slackFailureText : Str :=
  "❌ Failed to create Jira ticket. Please check logs.".toList

def slackErrLog : Str := "Error processing Slack bug report:".toList

/-- The `catch` block: log, then post the failure notice (whose own failure
escapes the handler uncaught). -/
def slackCatch (env : SlackEnv) (channel : Str) : List Action × Option JsError :=
  match env.postMessage channel slackFailureText with
  | .error e2 => ([.logError slackErrLog], some e2)
  | .ok _ => ([.logError slackErrLog, .postMessage channel slackFailureText], none)

/-- The `try` block of the bug-report flow, with its `catch`. -/
def slackBugFlow (env : SlackEnv) (channel text : Str) : List Action × Option JsError :=
  match env.parseBugReport text with
  | .error _ => slackCatch env channel
  | .ok bd0 =>
      let bd := { bd0 with projectKey := "KAN".toList }
      match env.createTicket bd with
      | .error _ => slackCatch env channel
      | .ok ticket =>
          let created := Action.createTicket bd.projectKey bd.summary bd.description bd.issueType
          match env.postMessage channel (slackSuccessText ticket bd) with
          | .error _ =>
              let c := slackCatch env channel
              (created :: c.1, c.2)
          | .ok _ => ([created, .postMessage channel (slackSuccessText ticket bd)], none)

inductive SlackOutcome where
  | challenge (c : Option Str)
  | ok (actions : List Action) (uncaught : Option JsError)
deriving DecidableEq, Repr

/-- `handleSlackEvent`: echo the `url_verification` challenge, otherwise
acknowledge with 200 and continue; `event.text.toLowerCase()` sits outside the
`try`, so a missing `text` throws after the acknowledgment. -/
def handleSlackEvent (env : SlackEnv) (body : SlackBody) : SlackOutcome :=
  if body.type = some "url_verification".toList then .challenge body.challenge
  else
    let cont : List Action × Option JsError :=
      match body.event with
      | none => ([], none)
      | some ev =>
          if ev.type = "message".toList ∧ ¬ truthyStrOpt ev.botId then
            match ev.text with
            | none => ([], some (.typeError "Cannot read properties of undefined (reading toLowerCase)".toList))
            | some t =>
                let lower := lowerStr t
                if containsSub "bug".toList lower || containsSub "broken".toList lower then
                  slackBugFlow env ev.channel t
                else ([], none)
          else ([], none)
    .ok cont.1 cont.2

/-! ## GitHub handler (`handleGithubEvent`) -/

structure PullRequest where
  headRef : Str
  title : Str
  merged : Bool
  htmlUrl : Str
deriving DecidableEq, Repr

structure GithubPayload where
  ref : Option Str
  refType : Option Str
  action : Option Str
  pullRequest : Option PullRequest
deriving DecidableEq, Repr

structure GithubHeaders where
  xHubSignature256 : Option Str
  xGithubEvent : Option Str
deriving DecidableEq, Repr

structure GithubEnv where
  updateTicketStatus : Str → Str → Except JsError Unit
  addComment : Str → Str → Except JsError Unit
  postMessage : Str → Str → Except JsError Unit

/-- The text `extractJiraKey` is applied to:
`` `${payload.ref || ''} ${payload.pull_request?.head.ref || ''} ${payload.pull_request?.title || ''}` ``. -/
def githubKeyText (p : GithubPayload) : Str :=
  orEmpty p.ref ++ ' ' :: ((p.pullRequest.map PullRequest.headRef).getD [])
    ++ ' ' :: ((p.pullRequest.map PullRequest.title).getD [])

/-- `${x}` interpolation of a possibly-undefined string. -/
def jsShow (o : Option Str) : Str := o.getD "undefined".toList

def branchCommentText (p : GithubPayload) : Str :=
  "Work has started on branch: ".toList ++ jsShow p.ref

def mergedCommentText (pr : PullRequest) : Str :=
  "Pull request merged: ".toList ++ pr.htmlUrl

def resolvedNoticeText (host jiraKey : Str) : Str :=
  "✅ Issue <".toList ++ ticketUrl host jiraKey ++ "|".toList ++ jiraKey
    ++ "> has been resolved.".toList

def githubErrLog : Str := "Error processing GitHub event:".toList

/-- The `try` block after the 202 acknowledgment. -/
def githubTryBody (host : Str) (env : GithubEnv) (eventType : Option Str)
    (p : GithubPayload) : List Action × Option JsError :=
  match extractJiraKey (githubKeyText p) with
  | none => ([], none)
  | some jiraKey =>
      let part1 : List Action × Option JsError :=
        if eventType = some "create".toList ∧ p.refType = some "branch".toList then
          callStep (env.updateTicketStatus jiraKey "In Progress".toList)
            (.updateTicketStatus jiraKey "In Progress".toList) (fun _ =>
          callStep (env.addComment jiraKey (branchCommentText p))
            (.addComment jiraKey (branchCommentText p)) (fun _ => ([], none)))
        else ([], none)
      match part1.2 with
      | some _ => part1
      | none =>
          if eventType = some "pull_request".toList ∧ p.action = some "closed".toList then
            match p.pullRequest with
            | none =>
                (part1.1, some (.typeError "Cannot read properties of undefined (reading merged)".toList))
            | some pr =>
                if pr.merged then
                  let part2 :=
                    callStep (env.updateTicketStatus jiraKey "Done".toList)
                      (.updateTicketStatus jiraKey "Done".toList) (fun _ =>
                    callStep (env.addComment jiraKey (mergedCommentText pr))
                      (.addComment jiraKey (mergedCommentText pr)) (fun _ =>
                    callStep (env.postMessage supportChannelId (resolvedNoticeText host jiraKey))
                      (.postMessage supportChannelId (resolvedNoticeText host jiraKey))
                      (fun _ => ([], none))))
                  (part1.1 ++ part2.1, part2.2)
                else (part1.1, none)
          else (part1.1, none)

inductive GithubOutcome where
  | uncaught (e : JsError)
  | unauthorized
  | accepted (actions : List Action) (caught : Option JsError)
deriving DecidableEq, Repr

/-- `handleGithubEvent`: compute the HMAC digest over the raw body, compare it
to the `x-hub-signature-256` header with `crypto.timingSafeEqual` (which
throws on unequal buffer lengths), answer 401 on a missing/falsy header or a
mismatch, else acknowledge 202 and run the `try` body whose errors are only
logged. -/
def handleGithubEvent (secret host : Str) (env : GithubEnv)
    (headers : GithubHeaders) (rawBody : Str) (p : GithubPayload) : GithubOutcome :=
  let digest := digestHeader secret rawBody
  match headers.xHubSignature256 with
  | none => .unauthorized
  | some signature =>
      if signature.isEmpty then .unauthorized
      else
        match timingSafeEqual (utf8Bytes signature) (utf8Bytes digest) with
        | .error e => .uncaught e
        | .ok eq =>
            if eq then
              let r := githubTryBody host env headers.xGithubEvent p
              .accepted r.1 r.2
            else .unauthorized

/-! ## Transcript-classification adapter (`analyzeTranscript`, four-intent
version of `ai.service.ts`)

The Gemini call and `JSON.parse` are external; the adapter's own behaviour is
a function of the parse outcome of the model's reply, embedded here as a JSON
value or a parse failure.  The adapter checks only that `intent`,
`confidence` and `details` are truthy, and rethrows everything as one
failure message. -/

inductive Json where
  | null
  | bool (b : Bool)
  | num (n : Int)
  | str (s : Str)
  | arr (elems : List Json)
  | obj (fields : List (Str × Json))
deriving Repr

/-- JavaScript truthiness of a JSON value (a missing property is `Json.null`). -/
def truthy : Json → Bool
  | .null => false
  | .bool b => b
  | .num n => n != 0
  | .str s => !s.isEmpty
  | .arr _ => true
  | .obj _ => true

def getFieldJ : List (Str × Json) → Str → Option Json
  | [], _ => none
  | (k, v) :: rest, key => if k = key then some v else getFieldJ rest key

/-- `value.key` property access; absent keys and non-objects give a falsy
`undefined`, embedded as `Json.null`. -/
def jsGet (j : Json) (key : Str) : Json :=
  match j with
  | .obj fields => (getFieldJ fields key).getD .null
  | _ => .null

def transcriptFailureMsg : Str :=
  "Failed to analyze transcript with Gemini SDK.".toList

/-- `analyzeTranscript` of `ai.service.ts` as a function of the parse outcome
of the model's reply text. -/
def analyzeTranscript (modelReply : Except JsError Json) : Except JsError Json :=
  match modelReply with
  | .error _ => .error (.jsError transcriptFailureMsg)
  | .ok parsed =>
      if truthy (jsGet parsed "intent".toList) && truthy (jsGet parsed "confidence".toList)
          && truthy (jsGet parsed "details".toList) then
        .ok parsed
      else .error (.jsError transcriptFailureMsg)

/-! ## Meet handler (`handleMeetEvent`) -/

structure TranscriptDetails where
  summary : Option Str
  description : Option Str
  issueType : Option Str
  searchQuery : Option Str
  comment : Option Str
  ticketKey : Option Str
  reason : Option Str
deriving DecidableEq, Repr

structure TranscriptAnalysis where
  intent : Str
  confidence : Str
  details : TranscriptDetails
deriving DecidableEq, Repr

structure Assignee where
  emailAddress : Option Str
  displayName : Str
deriving DecidableEq, Repr

structure MeetEnv where
  analyzeTranscript : Str → Except JsError TranscriptAnalysis
  createTicket : BugDetails → Except JsError CreatedTicket
  searchJiraIssues : Str → Except JsError (List CreatedTicket)
  addComment : Str → Str → Except JsError Unit
  getTicketAssignee : Str → Except JsError (Option Assignee)
  sendDirectMessageByEmail : Str → Str → Except JsError Unit
  postMessage : Str → Str → Except JsError Unit

def meetCreateText (host : Str) (ticket : CreatedTicket) : Str :=
  "✅ As discussed in the meeting, a new ticket was created: <".toList
    ++ ticketUrl host ticket.key ++ "|".toList ++ ticket.key ++ "> - ".toList
    ++ ticket.fieldsSummary

def meetNoteText (c : Str) : Str := "**Meeting Note:**\n".toList ++ c

def meetNoteNotice (host key c : Str) : Str :=
  "✅ A meeting note was added to <".toList ++ ticketUrl host key ++ "|".toList
    ++ key ++ ">: \"".toList ++ c.take 50 ++ "...\"".toList

def pauseCommentText (reason : Str) : Str :=
  "⚠️ **Decision from Meeting:**\nThis issue has been put on hold.\n*Reason:* ".toList
    ++ reason

def pauseDmText (host key : Str) : Str :=
  "A decision was made in a recent meeting to pause ticket <".toList
    ++ ticketUrl host key ++ "|".toList ++ key
    ++ ">, which is assigned to you. A comment has been added with details.".toList

/-- The `try` body of the meet handler: classify once, drop anything below
high confidence, then dispatch on the intent. -/
def meetTryBody (host : Str) (env : MeetEnv) (transcript : Str) :
    List Action × Option JsError :=
  match env.analyzeTranscript transcript with
  | .error e => ([], some e)
  | .ok analysis =>
      if analysis.confidence ≠ "high".toList then ([], none)
      else if analysis.intent = "CREATE_ISSUE".toList then
        if truthyStrOpt analysis.details.summary ∧ truthyStrOpt analysis.details.description
            ∧ truthyStrOpt analysis.details.issueType then
          let nd : BugDetails :=
            ⟨orEmpty analysis.details.summary, orEmpty analysis.details.description,
             "KAN".toList, orEmpty analysis.details.issueType⟩
          callStep (env.createTicket nd)
            (.createTicket nd.projectKey nd.summary nd.description nd.issueType) (fun ticket =>
          callStep (env.postMessage updateChannelId (meetCreateText host ticket))
            (.postMessage updateChannelId (meetCreateText host ticket)) (fun _ => ([], none)))
        else ([], none)
      else if analysis.intent = "ADD_COMMENT".toList then
        if truthyStrOpt analysis.details.searchQuery ∧ truthyStrOpt analysis.details.comment then
          let q := orEmpty analysis.details.searchQuery
          let c := orEmpty analysis.details.comment
          callStep (env.searchJiraIssues q) (.searchIssues q) (fun issues =>
            match issues with
            | [] => ([], none)
            | top :: _ =>
                callStep (env.addComment top.key (meetNoteText c))
                  (.addComment top.key (meetNoteText c)) (fun _ =>
                callStep (env.postMessage updateChannelId (meetNoteNotice host top.key c))
                  (.postMessage updateChannelId (meetNoteNotice host top.key c))
                  (fun _ => ([], none))))
        else ([], none)
      else if analysis.intent = "PAUSE_ISSUE".toList then
        if truthyStrOpt analysis.details.ticketKey ∧ truthyStrOpt analysis.details.reason then
          let k := orEmpty analysis.details.ticketKey
          callStep (env.addComment k (pauseCommentText (orEmpty analysis.details.reason)))
            (.addComment k (pauseCommentText (orEmpty analysis.details.reason))) (fun _ =>
          callStep (env.getTicketAssignee k) (.getTicketAssignee k) (fun assignee =>
            match assignee with
            | some a =>
                match a.emailAddress with
                | some em =>
                    if em.isEmpty then ([], none)
                    else
                      callStep (env.sendDirectMessageByEmail em (pauseDmText host k))
                        (.sendDirectMessage em (pauseDmText host k)) (fun _ => ([], none))
                | none => ([], none)
            | none => ([], none)))
        else ([], none)
      else ([], none)

inductive MeetOutcome where
  | badRequest
  | accepted (actions : List Action) (caught : Option JsError)
deriving DecidableEq, Repr

/-- `handleMeetEvent`: 400 when the transcript is missing/empty, else 202 and
the `try` body with errors only logged. -/
def handleMeetEvent (host : Str) (env : MeetEnv) (transcript : Option Str) : MeetOutcome :=
  if ¬ truthyStrOpt transcript then .badRequest
  else
    let r := meetTryBody host env (orEmpty transcript)
    .accepted r.1 r.2

/-! ## Jira comment handler, the Unblocker (`handleJiraEvent`) -/

structure JiraComment where
  body : Str
  authorDisplayName : Str
deriving DecidableEq, Repr

structure JiraIssueInfo where
  key : Str
  statusName : Str
deriving DecidableEq, Repr

/-- The issue-tracker webhook payload slice the handler reads. -/
structure JiraEvent where
  webhookEvent : Str
  comment : JiraComment
  issue : JiraIssueInfo
deriving DecidableEq, Repr

structure UserDetails where
  emailAddress : Option Str
  displayName : Str
deriving DecidableEq, Repr

structure JiraEnv where
  getUserDetailsById : Str → Except JsError (Option UserDetails)
  sendDirectMessageByEmail : Str → Str → Except JsError Unit

def blockerDmText (url key author commentBody : Str) : Str :=
  "🚨 **Blocker Alert** 🚨\nYou were mentioned on <".toList ++ url ++ "|".toList
    ++ key ++ ">.\n*Author:* ".toList ++ author ++ "\n*Comment:* \"".toList
    ++ commentBody.take 200 ++ "...\"".toList

def mentionErrLog : Str := "Error during automation for accountId".toList

/-- One iteration of the mention loop, inside its own `try`/`catch`: resolve
the account, DM on a truthy email address, and only then register the
four-hour escalation job. -/
def processMention (env : JiraEnv) (key status url author commentBody accountId : Str) :
    List Action :=
  match env.getUserDetailsById accountId with
  | .error _ => [.logError mentionErrLog]
  | .ok none => [.getUserDetails accountId]
  | .ok (some user) =>
      .getUserDetails accountId ::
      (match user.emailAddress with
       | none => []
       | some em =>
           if em.isEmpty then []
           else
             match env.sendDirectMessageByEmail em (blockerDmText url key author commentBody) with
             | .error _ => [.logError mentionErrLog]
             | .ok _ =>
                 [.sendDirectMessage em (blockerDmText url key author commentBody),
                  .scheduleEscalation ⟨key, status, url, author, FOUR_HOURS_IN_MS⟩])

/-- `handleJiraEvent` after its 200 acknowledgment: act only on
`comment_created`, and only when a blocking keyword and at least one mention
are both present; then run the mention loop. -/
def handleJiraEvent (host : Str) (env : JiraEnv) (event : JiraEvent) : List Action :=
  if event.webhookEvent ≠ "comment_created".toList then []
  else
    let commentBody := event.comment.body
    let isBlocked := BLOCKING_KEYWORDS.any (fun kw => containsSub kw (lowerStr commentBody))
    let mentions := allMentions commentBody
    if isBlocked ∧ 0 < mentions.length then
      mentions.flatMap
        (processMention env event.issue.key event.issue.statusName
          (ticketUrl host event.issue.key) event.comment.authorDisplayName commentBody)
    else []

/-! ## The fired escalation check (`setTimeout` callback) -/

structure EscalationEnv where
  getIssueStatus : Str → Except JsError Str
  postMessage : Str → Str → Except JsError Unit

def escalationText (job : EscalationJob) : Str :=
  "⚠️ **Blocker Escalation** ⚠️\nTicket <".toList ++ job.ticketUrl ++ "|".toList
    ++ job.ticketKey ++ "> is still in status *".toList ++ job.baselineStatus
    ++ "* 4 hours after a blocking comment from *".toList ++ job.author ++ "*.".toList

def escalationErrLog : Str := "Error during escalation check:".toList

/-- The deferred check: re-read the live status, escalate to the fixed dev
channel only when it still equals the captured baseline; any failure is
caught and logged. -/
def fireEscalation (env : EscalationEnv) (job : EscalationJob) : List Action :=
  match env.getIssueStatus job.ticketKey with
  | .error _ => [.logError escalationErrLog]
  | .ok live =>
      if live = job.baselineStatus then
        match env.postMessage devChannelId (escalationText job) with
        | .error _ => [.logError escalationErrLog]
        | .ok _ => [.postMessage devChannelId (escalationText job)]
      else []

/-! ## Classifying observable effects -/

/-- An alert direct message (a completed `sendDirectMessageByEmail`). -/
def isAlertDm : Action → Bool
  | .sendDirectMessage _ _ => true
  | _ => false

/-- A registered `EscalationJob` (a `setTimeout` arming). -/
def isEscalationReg : Action → Bool
  | .scheduleEscalation _ => true
  | _ => false

/-! # Lemmas -/

/-! ## Shape of the computed digest string -/

theorem length_hexOfBytes (l : List Nat) : (hexOfBytes l).length = 2 * l.length := by
  induction l with
  | nil => rfl
  | cons b rest ih => simp [hexOfBytes, List.flatMap_cons] at ih ⊢; omega

theorem hexDigit_toNat_lt (n : Nat) : (hexDigit n).toNat < 128 := by
  unfold hexDigit
  split <;> decide

theorem mem_hexOfBytes_ascii (l : List Nat) : ∀ c ∈ hexOfBytes l, c.toNat < 128 := by
  intro c hc
  simp only [hexOfBytes, List.mem_flatMap] at hc
  obtain ⟨b, _, hb⟩ := hc
  simp only [List.mem_cons, List.not_mem_nil, or_false] at hb
  rcases hb with rfl | rfl
  · exact hexDigit_toNat_lt _
  · exact hexDigit_toNat_lt _

theorem utf8EncodeChar_ascii {c : Char} (h : c.toNat < 128) :
    utf8EncodeChar c = [c.toNat] := by
  unfold utf8EncodeChar
  simp [h]

theorem utf8Bytes_ascii_length (s : Str) (h : ∀ c ∈ s, c.toNat < 128) :
    (utf8Bytes s).length = s.length := by
  induction s with
  | nil => rfl
  | cons c rest ih =>
      simp only [utf8Bytes, List.flatMap_cons, List.length_append, List.length_cons]
      rw [utf8EncodeChar_ascii (h c (by simp))]
      have := ih (fun x hx => h x (by simp [hx]))
      simp only [utf8Bytes] at this
      simp only [this, List.length_cons, List.length_nil]
      omega

theorem length_sha256 (m : List Nat) : (sha256 m).length = 32 := by
  simp [sha256, toBytes4]

theorem length_hmacSha256 (key msg : List Nat) : (hmacSha256 key msg).length = 32 := by
  unfold hmacSha256
  exact length_sha256 _

theorem utf8Bytes_append (a b : Str) : utf8Bytes (a ++ b) = utf8Bytes a ++ utf8Bytes b := by
  simp [utf8Bytes]

/-- The digest string `'sha256=' + hex` always occupies 71 bytes. -/
theorem digestHeader_utf8_length (secret body : Str) :
    (utf8Bytes (digestHeader secret body)).length = 71 := by
  unfold digestHeader
  rw [utf8Bytes_append, List.length_append]
  have h1 : (utf8Bytes "sha256=".toList).length = 7 := by decide
  have h2 : (utf8Bytes (hexOfBytes (hmacSha256 (utf8Bytes secret) (utf8Bytes body)))).length = 64 := by
    rw [utf8Bytes_ascii_length _ (mem_hexOfBytes_ascii _), length_hexOfBytes,
      length_hmacSha256]
  omega

theorem timingSafeEqual_self (a : List Nat) : timingSafeEqual a a = .ok true := by
  simp [timingSafeEqual]

/-! # Claim theorems -/

/-- C1.  The claim says signature verification never throws and any
malformed claimed signature — including one whose byte length differs from
the computed `'sha256=<hex>'` digest — yields the normal unauthorized
result.  The code instead passes both buffers to `crypto.timingSafeEqual`,
which raises a `RangeError` whenever the lengths differ: any nonempty
claimed signature that does not occupy exactly 71 bytes makes the handler
throw instead of answering 401. -/
theorem handleGithubEvent_throws_on_length_mismatch
    (secret host : Str) (env : GithubEnv) (headers : GithubHeaders) (rawBody : Str)
    (p : GithubPayload) (sig : Str)
    (hsig : headers.xHubSignature256 = some sig)
    (hne : sig.isEmpty = false)
    (hlen : (utf8Bytes sig).length ≠ 71) :
    handleGithubEvent secret host env headers rawBody p =
      .uncaught (.rangeError timingSafeEqualMsg) := by
  unfold handleGithubEvent
  rw [hsig]
  simp only [hne, Bool.false_eq_true, if_false]
  have : timingSafeEqual (utf8Bytes sig) (utf8Bytes (digestHeader secret rawBody)) =
      .error (.rangeError timingSafeEqualMsg) := by
    unfold timingSafeEqual
    rw [if_neg]
    rw [digestHeader_utf8_length]
    exact hlen
  rw [this]

/-- C1 witness: a concrete 8-character claimed signature (`"deadbeef"`)
makes the handler throw the `RangeError` rather than answer 401. -/
theorem handleGithubEvent_throws_on_length_mismatch_witness :
    handleGithubEvent "s".toList "example.com".toList
      ⟨fun _ _ => .ok (), fun _ _ => .ok (), fun _ _ => .ok ()⟩
      ⟨some "deadbeef".toList, some "push".toList⟩
      "x".toList ⟨none, none, none, none⟩ =
      .uncaught (.rangeError timingSafeEqualMsg) :=
  handleGithubEvent_throws_on_length_mismatch _ _ _ _ _ _ _
    rfl (by decide) (by decide)

theorem digestHeader_isEmpty (secret body : Str) :
    (digestHeader secret body).isEmpty = false := by
  have h : "sha256=".toList = 's' :: "ha256=".toList := by decide
  unfold digestHeader
  rw [h]
  simp

/-- C8.  An authenticated merged pull-request-closed event whose payload
carries ticket key `K` performs exactly the ordered sequence: transition `K`
to Done, append the comment carrying the PR URL, post the resolution notice
naming `K` to the fixed support channel. -/
theorem handleGithubEvent_merged_pr_sequence
    (secret host : Str) (env : GithubEnv) (headers : GithubHeaders) (rawBody : Str)
    (p : GithubPayload) (pr : PullRequest) (K : Str)
    (hsig : headers.xHubSignature256 = some (digestHeader secret rawBody))
    (hev : headers.xGithubEvent = some "pull_request".toList)
    (hact : p.action = some "closed".toList)
    (hpr : p.pullRequest = some pr)
    (hm : pr.merged = true)
    (hK : extractJiraKey (githubKeyText p) = some K)
    (h1 : env.updateTicketStatus K "Done".toList = .ok ())
    (h2 : env.addComment K (mergedCommentText pr) = .ok ())
    (h3 : env.postMessage supportChannelId (resolvedNoticeText host K) = .ok ()) :
    handleGithubEvent secret host env headers rawBody p =
      .accepted [.updateTicketStatus K "Done".toList,
                 .addComment K (mergedCommentText pr),
                 .postMessage supportChannelId (resolvedNoticeText host K)] none := by
  have e1 : (some "pull_request".toList = some "create".toList) = False :=
    eq_false (by decide)
  have htb : githubTryBody host env headers.xGithubEvent p =
      ([.updateTicketStatus K "Done".toList, .addComment K (mergedCommentText pr),
        .postMessage supportChannelId (resolvedNoticeText host K)], none) := by
    unfold githubTryBody
    simp only [hK, hev, hact, hpr, hm, e1, false_and, if_false, eq_self_iff_true,
      and_self, if_true, callStep, h1, h2, h3]
    simp
  simp only [handleGithubEvent, hsig, digestHeader_isEmpty, Bool.false_eq_true, if_false,
    timingSafeEqual_self, if_true, htb]

/-- C8 witness: a concrete correctly signed merged-PR event for `KAN-42`. -/
theorem handleGithubEvent_merged_pr_sequence_witness :
    handleGithubEvent "sec".toList "example.com".toList
      ⟨fun _ _ => .ok (), fun _ _ => .ok (), fun _ _ => .ok ()⟩
      ⟨some (digestHeader "sec".toList "body".toList), some "pull_request".toList⟩
      "body".toList
      ⟨none, none, some "closed".toList,
       some ⟨"fix/KAN-42-login".toList, "KAN-42 login fix".toList, true,
             "https://github.example/pr/1".toList⟩⟩ =
      .accepted
        [.updateTicketStatus "KAN-42".toList "Done".toList,
         .addComment "KAN-42".toList
           (mergedCommentText ⟨"fix/KAN-42-login".toList, "KAN-42 login fix".toList, true,
             "https://github.example/pr/1".toList⟩),
         .postMessage supportChannelId
           (resolvedNoticeText "example.com".toList "KAN-42".toList)] none :=
  handleGithubEvent_merged_pr_sequence _ _ _ _ _ _ _ _
    rfl rfl rfl rfl rfl (by decide) rfl rfl rfl

/-- C6.  A transcript whose classification comes back with confidence
`medium` or `low` is a no-op for every intent: the handler performs no
tracker or chat calls at all. -/
theorem handleMeetEvent_low_confidence_noop
    (host : Str) (env : MeetEnv) (t : Str) (a : TranscriptAnalysis)
    (ht : t.isEmpty = false)
    (ha : env.analyzeTranscript t = .ok a)
    (hc : a.confidence = "medium".toList ∨ a.confidence = "low".toList) :
    handleMeetEvent host env (some t) = .accepted [] none := by
  have h1 : meetTryBody host env t = ([], none) := by
    unfold meetTryBody
    simp only [ha]
    rcases hc with hc | hc <;> rw [hc, if_pos (by decide)]
  simp [handleMeetEvent, truthyStrOpt, ht, orEmpty, h1]

/-- C6 witness: a concrete medium-confidence CREATE_ISSUE classification
leaves tracker and chat untouched. -/
theorem handleMeetEvent_low_confidence_noop_witness :
    handleMeetEvent "example.com".toList
      ⟨fun _ => .ok ⟨"CREATE_ISSUE".toList, "medium".toList,
          ⟨some "s".toList, some "d".toList, some "Task".toList, none, none, none, none⟩⟩,
        fun _ => .ok ⟨"KAN-1".toList, "s".toList⟩,
        fun _ => .ok [],
        fun _ _ => .ok (),
        fun _ => .ok none,
        fun _ _ => .ok (),
        fun _ _ => .ok ()⟩
      (some "we should probably create a ticket".toList) = .accepted [] none :=
  handleMeetEvent_low_confidence_noop _ _ _ _ (by decide) rfl (Or.inl rfl)

/-! ## Unblocker lemmas -/

theorem processMention_getUser_error {env : JiraEnv} {k s u a b acct : Str} {e : JsError}
    (h : env.getUserDetailsById acct = .error e) :
    processMention env k s u a b acct = [.logError mentionErrLog] := by
  simp [processMention, h]

theorem processMention_dm_error {env : JiraEnv} {k s u a b acct em : Str}
    {user : UserDetails} {er : JsError}
    (hu : env.getUserDetailsById acct = .ok (some user))
    (he : user.emailAddress = some em) (hne : em.isEmpty = false)
    (hdm : env.sendDirectMessageByEmail em (blockerDmText u k a b) = .error er) :
    processMention env k s u a b acct = [.getUserDetails acct, .logError mentionErrLog] := by
  simp [processMention, hu, he, hne, hdm]

theorem processMention_success {env : JiraEnv} {k s u a b acct em : Str}
    {user : UserDetails}
    (hu : env.getUserDetailsById acct = .ok (some user))
    (he : user.emailAddress = some em) (hne : em.isEmpty = false)
    (hdm : env.sendDirectMessageByEmail em (blockerDmText u k a b) = .ok ()) :
    processMention env k s u a b acct =
      [.getUserDetails acct, .sendDirectMessage em (blockerDmText u k a b),
       .scheduleEscalation ⟨k, s, u, a, FOUR_HOURS_IN_MS⟩] := by
  simp [processMention, hu, he, hne, hdm]

/-- An escalation job can only enter the output after a successful account
resolution with a truthy email address and a direct message that completed
without throwing, and its fields are the values captured at registration. -/
theorem scheduleEscalation_mem_processMention {env : JiraEnv} {k s u a b acct : Str}
    {j : EscalationJob}
    (hmem : Action.scheduleEscalation j ∈ processMention env k s u a b acct) :
    j = ⟨k, s, u, a, FOUR_HOURS_IN_MS⟩ ∧
    ∃ user em, env.getUserDetailsById acct = .ok (some user) ∧
      user.emailAddress = some em ∧ em.isEmpty = false ∧
      env.sendDirectMessageByEmail em (blockerDmText u k a b) = .ok () := by
  unfold processMention at hmem
  split at hmem
  · simp at hmem
  · simp at hmem
  · next user hu =>
      split at hmem
      · simp at hmem
      · next em he =>
          split at hmem
          · simp at hmem
          · next hne =>
              split at hmem
              · simp at hmem
              · next val hdm =>
                  simp only [List.mem_cons, List.not_mem_nil, or_false] at hmem
                  rcases hmem with h | h | h
                  · exact absurd h (by simp)
                  · exact absurd h (by simp)
                  · refine ⟨by injection h, user, em, hu, he, by simpa using hne, ?_⟩
                    cases val
                    exact hdm

theorem countP_alertDm_processMention (env : JiraEnv) (k s u a b acct : Str) :
    (processMention env k s u a b acct).countP isAlertDm ≤ 1 := by
  unfold processMention
  split
  · simp [List.countP_cons, isAlertDm]
  · simp [List.countP_cons, isAlertDm]
  · split
    · simp [List.countP_cons, isAlertDm]
    · split
      · simp [List.countP_cons, isAlertDm]
      · split
        · simp [List.countP_cons, isAlertDm]
        · simp [List.countP_cons, isAlertDm]

theorem countP_escReg_processMention (env : JiraEnv) (k s u a b acct : Str) :
    (processMention env k s u a b acct).countP isEscalationReg ≤ 1 := by
  unfold processMention
  split
  · simp [List.countP_cons, isEscalationReg]
  · simp [List.countP_cons, isEscalationReg]
  · split
    · simp [List.countP_cons, isEscalationReg]
    · split
      · simp [List.countP_cons, isEscalationReg]
      · split
        · simp [List.countP_cons, isEscalationReg]
        · simp [List.countP_cons, isEscalationReg]

theorem handleJiraEvent_no_keyword {host : Str} {env : JiraEnv} {ev : JiraEvent}
    (h : BLOCKING_KEYWORDS.any (fun kw => containsSub kw (lowerStr ev.comment.body)) = false) :
    handleJiraEvent host env ev = [] := by
  simp [handleJiraEvent, h]

theorem handleJiraEvent_no_mentions {host : Str} {env : JiraEnv} {ev : JiraEvent}
    (h : allMentions ev.comment.body = []) :
    handleJiraEvent host env ev = [] := by
  simp [handleJiraEvent, h]

theorem handleJiraEvent_flatMap {host : Str} {env : JiraEnv} {ev : JiraEvent}
    (hwe : ev.webhookEvent = "comment_created".toList)
    (hb : BLOCKING_KEYWORDS.any (fun kw => containsSub kw (lowerStr ev.comment.body)) = true)
    (hm : 0 < (allMentions ev.comment.body).length) :
    handleJiraEvent host env ev =
      (allMentions ev.comment.body).flatMap
        (processMention env ev.issue.key ev.issue.statusName
          (ticketUrl host ev.issue.key) ev.comment.authorDisplayName ev.comment.body) := by
  simp [handleJiraEvent, hwe, hb, hm]

/-! ## Fired-escalation lemmas -/

theorem fireEscalation_unchanged {fe : EscalationEnv} {j : EscalationJob} {live : Str}
    (hs : fe.getIssueStatus j.ticketKey = .ok live) (heq : live = j.baselineStatus)
    (hp : fe.postMessage devChannelId (escalationText j) = .ok ()) :
    fireEscalation fe j = [.postMessage devChannelId (escalationText j)] := by
  simp [fireEscalation, hs, heq, hp]

theorem fireEscalation_changed {fe : EscalationEnv} {j : EscalationJob} {live : Str}
    (hs : fe.getIssueStatus j.ticketKey = .ok live) (hne : live ≠ j.baselineStatus) :
    fireEscalation fe j = [] := by
  simp [fireEscalation, hs, hne]

theorem fireEscalation_read_failed {fe : EscalationEnv} {j : EscalationJob} {e : JsError}
    (hs : fe.getIssueStatus j.ticketKey = .error e) :
    fireEscalation fe j = [.logError escalationErrLog] := by
  simp [fireEscalation, hs]

/-- C3.  Every escalation job the Unblocker registers carries the fixed
four-hour delay and the baseline status captured from the event at
registration time; at fire time the re-read live status is compared by value
to that baseline: equal → the notice goes to the fixed operations channel
exactly once, different → nothing is posted, re-read failure → the failure
is logged and nothing is posted. -/
theorem escalationJob_baseline_and_fire
    (host : Str) (env : JiraEnv) (ev : JiraEvent) (job : EscalationJob)
    (hmem : Action.scheduleEscalation job ∈ handleJiraEvent host env ev) :
    job.delayMs = FOUR_HOURS_IN_MS ∧
    job.ticketKey = ev.issue.key ∧
    job.baselineStatus = ev.issue.statusName ∧
    ∀ (fe : EscalationEnv),
      (∀ live, fe.getIssueStatus job.ticketKey = .ok live → live = job.baselineStatus →
        fe.postMessage devChannelId (escalationText job) = .ok () →
        fireEscalation fe job = [.postMessage devChannelId (escalationText job)]) ∧
      (∀ live, fe.getIssueStatus job.ticketKey = .ok live → live ≠ job.baselineStatus →
        fireEscalation fe job = []) ∧
      (∀ e, fe.getIssueStatus job.ticketKey = .error e →
        fireEscalation fe job = [.logError escalationErrLog]) := by
  have hjob : job = ⟨ev.issue.key, ev.issue.statusName, ticketUrl host ev.issue.key,
      ev.comment.authorDisplayName, FOUR_HOURS_IN_MS⟩ := by
    by_cases hwe : ev.webhookEvent = "comment_created".toList
    · by_cases hb : BLOCKING_KEYWORDS.any (fun kw => containsSub kw (lowerStr ev.comment.body)) = true
      · by_cases hm0 : 0 < (allMentions ev.comment.body).length
        · rw [handleJiraEvent_flatMap hwe hb hm0, List.mem_flatMap] at hmem
          obtain ⟨m, _, hpm⟩ := hmem
          exact (scheduleEscalation_mem_processMention hpm).1
        · have hnil : allMentions ev.comment.body = [] :=
            List.length_eq_zero.mp (by omega)
          rw [handleJiraEvent_no_mentions hnil] at hmem
          simp at hmem
      · have hb' : BLOCKING_KEYWORDS.any
            (fun kw => containsSub kw (lowerStr ev.comment.body)) = false := by
          revert hb
          cases BLOCKING_KEYWORDS.any (fun kw => containsSub kw (lowerStr ev.comment.body)) <;> simp
        rw [handleJiraEvent_no_keyword hb'] at hmem
        simp at hmem
    · have hempty : handleJiraEvent host env ev = [] := by
        unfold handleJiraEvent
        rw [if_pos hwe]
      rw [hempty] at hmem
      simp at hmem
  refine ⟨by rw [hjob], by rw [hjob], by rw [hjob], ?_⟩
  intro fe
  exact ⟨fun live hs heq hp => fireEscalation_unchanged hs heq hp,
         fun live hs hne => fireEscalation_changed hs hne,
         fun e hs => fireEscalation_read_failed hs⟩

/-- C3 witness: a concrete blocking comment registers a job with baseline
"In Progress"; firing against a live status still "In Progress" posts the
notice exactly once, against "Done" posts nothing, and against a failed
re-read logs only. -/
theorem escalationJob_baseline_and_fire_witness :
    (Action.scheduleEscalation
        ⟨"KAN-9".toList, "In Progress".toList,
         ticketUrl "example.com".toList "KAN-9".toList, "Alice".toList, FOUR_HOURS_IN_MS⟩ ∈
      handleJiraEvent "example.com".toList
        ⟨fun _ => .ok (some ⟨some "dev@example.com".toList, "Dev".toList⟩),
         fun _ _ => .ok ()⟩
        ⟨"comment_created".toList,
         ⟨"waiting on [~accountid:4af9]".toList, "Alice".toList⟩,
         ⟨"KAN-9".toList, "In Progress".toList⟩⟩) ∧
    (⟨"KAN-9".toList, "In Progress".toList,
        ticketUrl "example.com".toList "KAN-9".toList, "Alice".toList,
        FOUR_HOURS_IN_MS⟩ : EscalationJob).delayMs = FOUR_HOURS_IN_MS ∧
    fireEscalation ⟨fun _ => .ok "In Progress".toList, fun _ _ => .ok ()⟩
        ⟨"KAN-9".toList, "In Progress".toList,
         ticketUrl "example.com".toList "KAN-9".toList, "Alice".toList, FOUR_HOURS_IN_MS⟩ =
      [.postMessage devChannelId
        (escalationText
          ⟨"KAN-9".toList, "In Progress".toList,
           ticketUrl "example.com".toList "KAN-9".toList, "Alice".toList, FOUR_HOURS_IN_MS⟩)] ∧
    fireEscalation ⟨fun _ => .ok "Done".toList, fun _ _ => .ok ()⟩
        ⟨"KAN-9".toList, "In Progress".toList,
         ticketUrl "example.com".toList "KAN-9".toList, "Alice".toList, FOUR_HOURS_IN_MS⟩ = [] ∧
    fireEscalation ⟨fun _ => .error (.jsError "jira down".toList), fun _ _ => .ok ()⟩
        ⟨"KAN-9".toList, "In Progress".toList,
         ticketUrl "example.com".toList "KAN-9".toList, "Alice".toList, FOUR_HOURS_IN_MS⟩ =
      [.logError escalationErrLog] := by
  have hmem :
      Action.scheduleEscalation
        ⟨"KAN-9".toList, "In Progress".toList,
         ticketUrl "example.com".toList "KAN-9".toList, "Alice".toList, FOUR_HOURS_IN_MS⟩ ∈
      handleJiraEvent "example.com".toList
        ⟨fun _ => .ok (some ⟨some "dev@example.com".toList, "Dev".toList⟩),
         fun _ _ => .ok ()⟩
        ⟨"comment_created".toList,
         ⟨"waiting on [~accountid:4af9]".toList, "Alice".toList⟩,
         ⟨"KAN-9".toList, "In Progress".toList⟩⟩ := by decide
  have T := escalationJob_baseline_and_fire _ _ _ _ hmem
  exact ⟨hmem, T.1,
    (T.2.2.2 _).1 _ rfl rfl rfl,
    (T.2.2.2 _).2.1 _ rfl (by decide),
    (T.2.2.2 _).2.2 _ rfl⟩

/-- C2 counterexample: the claim promises exactly one alert notification per
distinct mentioned account even when the same account is mentioned twice;
on a comment mentioning account `ab12` twice with a blocking keyword, the
code sends two alert DMs and registers two escalation jobs although only one
distinct account is mentioned. -/
theorem unblocker_duplicate_mention_double_notification :
    (handleJiraEvent "example.com".toList
        ⟨fun _ => .ok (some ⟨some "dev@example.com".toList, "Dev".toList⟩),
         fun _ _ => .ok ()⟩
        ⟨"comment_created".toList,
         ⟨"blocked by [~accountid:ab12] [~accountid:ab12]".toList, "Alice".toList⟩,
         ⟨"KAN-9".toList, "In Progress".toList⟩⟩).countP isAlertDm = 2 ∧
    (handleJiraEvent "example.com".toList
        ⟨fun _ => .ok (some ⟨some "dev@example.com".toList, "Dev".toList⟩),
         fun _ _ => .ok ()⟩
        ⟨"comment_created".toList,
         ⟨"blocked by [~accountid:ab12] [~accountid:ab12]".toList, "Alice".toList⟩,
         ⟨"KAN-9".toList, "In Progress".toList⟩⟩).countP isEscalationReg = 2 ∧
    (allMentions "blocked by [~accountid:ab12] [~accountid:ab12]".toList).dedup.length = 1 := by
  decide

/-- C2 (amended).  The Unblocker still requires both signals — a blocking
keyword and at least one structured mention — and a keyword-only or
mention-only comment produces nothing; but when both are present it produces
exactly one alert notification and at most one escalation job *per mention
occurrence* (per regex match), not per distinct mentioned account: the loop
iterates over all matches without deduplication. -/
theorem unblocker_per_occurrence_conjunction
    (host : Str) (env : JiraEnv) (ev : JiraEvent) :
    (allMentions ev.comment.body = [] → handleJiraEvent host env ev = []) ∧
    (BLOCKING_KEYWORDS.any (fun kw => containsSub kw (lowerStr ev.comment.body)) = false →
      handleJiraEvent host env ev = []) ∧
    (ev.webhookEvent = "comment_created".toList →
      BLOCKING_KEYWORDS.any (fun kw => containsSub kw (lowerStr ev.comment.body)) = true →
      0 < (allMentions ev.comment.body).length →
      handleJiraEvent host env ev =
        (allMentions ev.comment.body).flatMap
          (processMention env ev.issue.key ev.issue.statusName
            (ticketUrl host ev.issue.key) ev.comment.authorDisplayName ev.comment.body)) ∧
    (∀ acct,
      (processMention env ev.issue.key ev.issue.statusName (ticketUrl host ev.issue.key)
          ev.comment.authorDisplayName ev.comment.body acct).countP isAlertDm ≤ 1 ∧
      (processMention env ev.issue.key ev.issue.statusName (ticketUrl host ev.issue.key)
          ev.comment.authorDisplayName ev.comment.body acct).countP isEscalationReg ≤ 1) ∧
    (∀ acct user em,
      env.getUserDetailsById acct = .ok (some user) →
      user.emailAddress = some em → em.isEmpty = false →
      env.sendDirectMessageByEmail em
          (blockerDmText (ticketUrl host ev.issue.key) ev.issue.key
            ev.comment.authorDisplayName ev.comment.body) = .ok () →
      (processMention env ev.issue.key ev.issue.statusName (ticketUrl host ev.issue.key)
          ev.comment.authorDisplayName ev.comment.body acct).countP isAlertDm = 1 ∧
      (processMention env ev.issue.key ev.issue.statusName (ticketUrl host ev.issue.key)
          ev.comment.authorDisplayName ev.comment.body acct).countP isEscalationReg = 1) := by
  refine ⟨fun h => handleJiraEvent_no_mentions h,
          fun h => handleJiraEvent_no_keyword h,
          fun hwe hb hm => handleJiraEvent_flatMap hwe hb hm,
          fun acct => ⟨countP_alertDm_processMention _ _ _ _ _ _ _,
                       countP_escReg_processMention _ _ _ _ _ _ _⟩,
          fun acct user em hu he hne hdm => ?_⟩
  rw [processMention_success hu he hne hdm]
  constructor
  · simp [List.countP_cons, isAlertDm]
  · simp [List.countP_cons, isEscalationReg]

/-- C2 witness for the amended claim: keyword-only and mention-only comments
produce nothing; a comment with both signals and one resolvable mention
produces exactly one alert DM and one escalation job. -/
theorem unblocker_per_occurrence_conjunction_witness :
    handleJiraEvent "example.com".toList
      ⟨fun _ => .ok (some ⟨some "dev@example.com".toList, "Dev".toList⟩), fun _ _ => .ok ()⟩
      ⟨"comment_created".toList, ⟨"we are blocked by the login bug".toList, "Alice".toList⟩,
       ⟨"KAN-9".toList, "In Progress".toList⟩⟩ = [] ∧
    handleJiraEvent "example.com".toList
      ⟨fun _ => .ok (some ⟨some "dev@example.com".toList, "Dev".toList⟩), fun _ _ => .ok ()⟩
      ⟨"comment_created".toList, ⟨"fyi [~accountid:4af9] have a look".toList, "Alice".toList⟩,
       ⟨"KAN-9".toList, "In Progress".toList⟩⟩ = [] ∧
    (processMention
        ⟨fun _ => .ok (some ⟨some "dev@example.com".toList, "Dev".toList⟩), fun _ _ => .ok ()⟩
        "KAN-9".toList "In Progress".toList
        (ticketUrl "example.com".toList "KAN-9".toList) "Alice".toList
        "blocked by [~accountid:4af9]".toList "4af9".toList).countP isAlertDm = 1 := by
  refine ⟨(unblocker_per_occurrence_conjunction "example.com".toList _ _).1 (by decide),
          (unblocker_per_occurrence_conjunction "example.com".toList _
            ⟨"comment_created".toList, ⟨"fyi [~accountid:4af9] have a look".toList, "Alice".toList⟩,
             ⟨"KAN-9".toList, "In Progress".toList⟩⟩).2.1 (by decide),
          ((unblocker_per_occurrence_conjunction "example.com".toList _
            ⟨"comment_created".toList, ⟨"blocked by [~accountid:4af9]".toList, "Alice".toList⟩,
             ⟨"KAN-9".toList, "In Progress".toList⟩⟩).2.2.2.2 "4af9".toList _ _
            rfl rfl (by decide) rfl).1⟩

/-- C10.  The escalation timer is armed only after the mentioned account has
been resolved to an email address and the alert direct message has completed
without throwing; each mention runs in its own error scope, so one
account's lookup or notification failure only suppresses that account's
registration, and the handler's output is the concatenation of the
independent per-mention outputs. -/
theorem escalation_registration_after_dm_and_isolation
    (host : Str) (env : JiraEnv) (ev : JiraEvent) (k s u a b : Str) :
    (∀ acct e, env.getUserDetailsById acct = .error e →
      processMention env k s u a b acct = [.logError mentionErrLog]) ∧
    (∀ acct user em er, env.getUserDetailsById acct = .ok (some user) →
      user.emailAddress = some em → em.isEmpty = false →
      env.sendDirectMessageByEmail em (blockerDmText u k a b) = .error er →
      processMention env k s u a b acct = [.getUserDetails acct, .logError mentionErrLog]) ∧
    (∀ acct j, Action.scheduleEscalation j ∈ processMention env k s u a b acct →
      ∃ user em, env.getUserDetailsById acct = .ok (some user) ∧
        user.emailAddress = some em ∧ em.isEmpty = false ∧
        env.sendDirectMessageByEmail em (blockerDmText u k a b) = .ok ()) ∧
    (∀ acct user em, env.getUserDetailsById acct = .ok (some user) →
      user.emailAddress = some em → em.isEmpty = false →
      env.sendDirectMessageByEmail em (blockerDmText u k a b) = .ok () →
      processMention env k s u a b acct =
        [.getUserDetails acct, .sendDirectMessage em (blockerDmText u k a b),
         .scheduleEscalation ⟨k, s, u, a, FOUR_HOURS_IN_MS⟩]) ∧
    (ev.webhookEvent = "comment_created".toList →
      BLOCKING_KEYWORDS.any (fun kw => containsSub kw (lowerStr ev.comment.body)) = true →
      0 < (allMentions ev.comment.body).length →
      handleJiraEvent host env ev =
        (allMentions ev.comment.body).flatMap
          (processMention env ev.issue.key ev.issue.statusName
            (ticketUrl host ev.issue.key) ev.comment.authorDisplayName ev.comment.body)) :=
  ⟨fun _ _ h => processMention_getUser_error h,
   fun _ _ _ _ hu he hne hdm => processMention_dm_error hu he hne hdm,
   fun _ _ hmem => (scheduleEscalation_mem_processMention hmem).2,
   fun _ _ _ hu he hne hdm => processMention_success hu he hne hdm,
   fun hwe hb hm => handleJiraEvent_flatMap hwe hb hm⟩

/-- C10 witness: with one failing account (`bad1`) and one resolvable
account (`4af9`) mentioned in the same blocking comment, the failing
mention contributes only its logged error while the other still receives
its DM and escalation registration. -/
theorem escalation_registration_after_dm_and_isolation_witness :
    processMention
      ⟨fun acct => if acct = "bad1".toList then .error (.jsError "boom".toList)
                   else .ok (some ⟨some "dev@example.com".toList, "Dev".toList⟩),
       fun _ _ => .ok ()⟩
      "KAN-9".toList "In Progress".toList
      (ticketUrl "example.com".toList "KAN-9".toList) "Alice".toList
      "blocked by [~accountid:bad1] [~accountid:4af9]".toList "bad1".toList =
      [.logError mentionErrLog] ∧
    handleJiraEvent "example.com".toList
      ⟨fun acct => if acct = "bad1".toList then .error (.jsError "boom".toList)
                   else .ok (some ⟨some "dev@example.com".toList, "Dev".toList⟩),
       fun _ _ => .ok ()⟩
      ⟨"comment_created".toList,
       ⟨"blocked by [~accountid:bad1] [~accountid:4af9]".toList, "Alice".toList⟩,
       ⟨"KAN-9".toList, "In Progress".toList⟩⟩ =
      (allMentions "blocked by [~accountid:bad1] [~accountid:4af9]".toList).flatMap
        (processMention
          ⟨fun acct => if acct = "bad1".toList then .error (.jsError "boom".toList)
                       else .ok (some ⟨some "dev@example.com".toList, "Dev".toList⟩),
           fun _ _ => .ok ()⟩
          "KAN-9".toList "In Progress".toList
          (ticketUrl "example.com".toList "KAN-9".toList) "Alice".toList
          "blocked by [~accountid:bad1] [~accountid:4af9]".toList) :=
  ⟨(escalation_registration_after_dm_and_isolation "example.com".toList _
      ⟨"comment_created".toList,
       ⟨"blocked by [~accountid:bad1] [~accountid:4af9]".toList, "Alice".toList⟩,
       ⟨"KAN-9".toList, "In Progress".toList⟩⟩
      "KAN-9".toList "In Progress".toList
      (ticketUrl "example.com".toList "KAN-9".toList) "Alice".toList
      "blocked by [~accountid:bad1] [~accountid:4af9]".toList).1
      "bad1".toList (.jsError "boom".toList) rfl,
   (escalation_registration_after_dm_and_isolation "example.com".toList _
      ⟨"comment_created".toList,
       ⟨"blocked by [~accountid:bad1] [~accountid:4af9]".toList, "Alice".toList⟩,
       ⟨"KAN-9".toList, "In Progress".toList⟩⟩
      "KAN-9".toList "In Progress".toList
      (ticketUrl "example.com".toList "KAN-9".toList) "Alice".toList
      "blocked by [~accountid:bad1] [~accountid:4af9]".toList).2.2.2.2
      rfl (by decide) (by decide)⟩

/-! ## Transcript-adapter lemmas and claims -/

/-- C5 counterexample: a parsed model reply with intent `CREATE_ISSUE`, high
confidence and an *empty* details object is missing every key the intent
table requires (summary, description, issueType), yet the adapter returns it
successfully instead of failing with a `ClassificationError`. -/
theorem analyzeTranscript_missing_required_details_accepted :
    analyzeTranscript (.ok (.obj [("intent".toList, .str "CREATE_ISSUE".toList),
        ("confidence".toList, .str "high".toList),
        ("details".toList, .obj [])])) =
      .ok (.obj [("intent".toList, .str "CREATE_ISSUE".toList),
        ("confidence".toList, .str "high".toList),
        ("details".toList, .obj [])]) ∧
    jsGet (jsGet (.obj [("intent".toList, .str "CREATE_ISSUE".toList),
        ("confidence".toList, .str "high".toList),
        ("details".toList, .obj [])]) "details".toList) "summary".toList = .null :=
  ⟨rfl, rfl⟩

/-- C5 (amended).  The adapter fails with a `ClassificationError` exactly
when the model's reply does not parse as JSON or one of the three top-level
keys `intent`, `confidence`, `details` is missing/falsy; it performs no
per-intent validation of the details table, returning the parsed object
unchanged whenever the three top-level keys are truthy. -/
theorem analyzeTranscript_validation (e : JsError) (p : Json) :
    analyzeTranscript (.error e) = .error (.jsError transcriptFailureMsg) ∧
    (truthy (jsGet p "intent".toList) = false ∨ truthy (jsGet p "confidence".toList) = false ∨
      truthy (jsGet p "details".toList) = false →
      analyzeTranscript (.ok p) = .error (.jsError transcriptFailureMsg)) ∧
    (truthy (jsGet p "intent".toList) = true → truthy (jsGet p "confidence".toList) = true →
      truthy (jsGet p "details".toList) = true →
      analyzeTranscript (.ok p) = .ok p) := by
  refine ⟨rfl, ?_, ?_⟩
  · intro h
    have hC : (truthy (jsGet p "intent".toList) && truthy (jsGet p "confidence".toList) &&
        truthy (jsGet p "details".toList)) = false := by
      rcases h with h | h | h
      · rw [h, Bool.false_and, Bool.false_and]
      · rw [h, Bool.and_false, Bool.false_and]
      · rw [h, Bool.and_false]
    show (if (truthy (jsGet p "intent".toList) && truthy (jsGet p "confidence".toList) &&
        truthy (jsGet p "details".toList)) = true then Except.ok p
      else Except.error (JsError.jsError transcriptFailureMsg)) =
      Except.error (JsError.jsError transcriptFailureMsg)
    rw [hC]
    simp
  · intro h1 h2 h3
    have hC : (truthy (jsGet p "intent".toList) && truthy (jsGet p "confidence".toList) &&
        truthy (jsGet p "details".toList)) = true := by
      rw [h1, h2, h3]
      rfl
    show (if (truthy (jsGet p "intent".toList) && truthy (jsGet p "confidence".toList) &&
        truthy (jsGet p "details".toList)) = true then Except.ok p
      else Except.error (JsError.jsError transcriptFailureMsg)) = Except.ok p
    rw [hC]
    simp

/-- C5 witness for the amended claim: a parse failure fails; a reply missing
the three top-level keys fails; a `NONE` reply with empty details (all three
keys truthy, no detail fields) succeeds. -/
theorem analyzeTranscript_validation_witness :
    analyzeTranscript (.error (.jsError "Unexpected token".toList)) =
      .error (.jsError transcriptFailureMsg) ∧
    analyzeTranscript (.ok (.obj [("confidence".toList, .str "high".toList)])) =
      .error (.jsError transcriptFailureMsg) ∧
    analyzeTranscript (.ok (.obj [("intent".toList, .str "NONE".toList),
        ("confidence".toList, .str "high".toList), ("details".toList, .obj [])])) =
      .ok (.obj [("intent".toList, .str "NONE".toList),
        ("confidence".toList, .str "high".toList), ("details".toList, .obj [])]) :=
  ⟨(analyzeTranscript_validation (.jsError "Unexpected token".toList) (.obj [])).1,
   (analyzeTranscript_validation (.jsError "Unexpected token".toList)
      (.obj [("confidence".toList, .str "high".toList)])).2.1 (Or.inl rfl),
   (analyzeTranscript_validation (.jsError "Unexpected token".toList)
      (.obj [("intent".toList, .str "NONE".toList),
        ("confidence".toList, .str "high".toList), ("details".toList, .obj [])])).2.2
      rfl rfl rfl⟩

/-! ## Slack-handler lemmas and claims -/

theorem slackCatch_total {env : SlackEnv} (channel : Str)
    (hpm : ∀ c s, env.postMessage c s = .ok ()) :
    slackCatch env channel =
      ([.logError slackErrLog, .postMessage channel slackFailureText], none) := by
  unfold slackCatch
  rw [hpm]

theorem slackBugFlow_total {env : SlackEnv} (channel text : Str)
    (hpm : ∀ c s, env.postMessage c s = .ok ()) :
    (slackBugFlow env channel text).2 = none := by
  cases hp : env.parseBugReport text with
  | error e =>
      simp only [slackBugFlow, hp, slackCatch_total channel hpm]
  | ok bd0 =>
      cases hc : env.createTicket { bd0 with projectKey := "KAN".toList } with
      | error e =>
          simp only [slackBugFlow, hp, hc, slackCatch_total channel hpm]
      | ok ticket =>
          simp only [slackBugFlow, hp, hc, hpm]

/-- C9 counterexample: the claim says that once `event.text` is a string the
keyword check and subsequent flow are total; but when ticket creation fails
and the catch-block failure notice itself throws, the error escapes the
handler uncaught even though `text` was present. -/
theorem handleSlackEvent_catch_post_throws :
    handleSlackEvent
      ⟨fun _ => .error (.jsError "ai down".toList),
       fun _ => .error (.jsError "jira down".toList),
       fun _ _ => .error (.jsError "slack down".toList)⟩
      ⟨some "event_callback".toList, none,
       some ⟨"message".toList, none, some "there is a bug".toList, "C1".toList⟩⟩ =
      .ok [.logError slackErrLog] (some (.jsError "slack down".toList)) := by
  decide

/-- C9 (amended).  For a non-bot chat message event whose `event` object
lacks a `text` field, the handler throws a `TypeError` (the `toLowerCase`
access sits outside any try/catch) after the 200 acknowledgment; when
`event.text` is a string, the flow throws nothing provided the chat-post
operation itself never throws — a failing catch-block failure notice is the
one escape hatch. -/
theorem handleSlackEvent_missing_text_throws_and_guarded_totality
    (env : SlackEnv) (body : SlackBody) (ev : SlackInnerEvent)
    (hnv : body.type ≠ some "url_verification".toList)
    (hev : body.event = some ev)
    (hty : ev.type = "message".toList)
    (hbot : truthyStrOpt ev.botId = false) :
    (ev.text = none →
      handleSlackEvent env body =
        .ok []
          (some (.typeError "Cannot read properties of undefined (reading toLowerCase)".toList))) ∧
    (∀ t, ev.text = some t → (∀ c s, env.postMessage c s = .ok ()) →
      ∃ acts, handleSlackEvent env body = .ok acts none) := by
  have hcond : (ev.type = "message".toList ∧ ¬ truthyStrOpt ev.botId = true) := by
    exact ⟨hty, by simp [hbot]⟩
  constructor
  · intro htext
    unfold handleSlackEvent
    rw [if_neg hnv]
    simp only [hev]
    rw [if_pos hcond, htext]
  · intro t htext hpm
    unfold handleSlackEvent
    rw [if_neg hnv]
    simp only [hev]
    rw [if_pos hcond]
    simp only [htext]
    by_cases hkw : (containsSub "bug".toList (lowerStr t) || containsSub "broken".toList (lowerStr t)) = true
    · rw [if_pos hkw]
      exact ⟨(slackBugFlow env ev.channel t).1, by rw [slackBugFlow_total ev.channel t hpm]⟩
    · rw [if_neg hkw]
      exact ⟨[], rfl⟩

/-- C9 witness for the amended claim: a concrete message event without
`text` throws the TypeError after the acknowledgment, and the same flow with
text present and a healthy chat gateway finishes without an uncaught
error. -/
theorem handleSlackEvent_missing_text_throws_witness :
    handleSlackEvent
      ⟨fun _ => .ok ⟨"s".toList, "d".toList, "FE".toList, "Task".toList⟩,
       fun _ => .ok ⟨"KAN-7".toList, "s".toList⟩,
       fun _ _ => .ok ()⟩
      ⟨some "event_callback".toList, none,
       some ⟨"message".toList, none, none, "C1".toList⟩⟩ =
      .ok []
        (some (.typeError "Cannot read properties of undefined (reading toLowerCase)".toList)) ∧
    (∃ acts, handleSlackEvent
      ⟨fun _ => .ok ⟨"s".toList, "d".toList, "FE".toList, "Task".toList⟩,
       fun _ => .ok ⟨"KAN-7".toList, "s".toList⟩,
       fun _ _ => .ok ()⟩
      ⟨some "event_callback".toList, none,
       some ⟨"message".toList, none, some "the app is broken".toList, "C1".toList⟩⟩ =
      .ok acts none) :=
  ⟨(handleSlackEvent_missing_text_throws_and_guarded_totality _ _
      ⟨"message".toList, none, none, "C1".toList⟩
      (by decide) rfl rfl rfl).1 rfl,
   (handleSlackEvent_missing_text_throws_and_guarded_totality _ _
      ⟨"message".toList, none, some "the app is broken".toList, "C1".toList⟩
      (by decide) rfl rfl rfl).2 _ rfl (fun _ _ => rfl)⟩

/-! ## Ticket-key extraction lemmas -/

theorem takeWhile_length_le {p : Char → Bool} (l : Str) :
    (l.takeWhile p).length ≤ l.length := by
  conv_rhs => rw [← List.takeWhile_append_dropWhile p l]
  rw [List.length_append]
  omega

theorem takeWhile_full {p : Char → Bool} {x : Str}
    (h : (x.takeWhile p).length = x.length) : x.takeWhile p = x := by
  have hsplit := List.takeWhile_append_dropWhile p x
  have hlen : (x.dropWhile p).length = 0 := by
    have hc := congrArg List.length hsplit
    rw [List.length_append] at hc
    omega
  have hdnil : x.dropWhile p = [] := List.length_eq_zero.mp hlen
  conv_rhs => rw [← hsplit]
  rw [hdnil, List.append_nil]

/-- Appending after a separator the scanned class rejects does not change a
`takeWhile` run. -/
theorem takeWhile_append_not {p : Char → Bool} {q : Char} (hq : p q = false) (x l : Str) :
    (x ++ q :: l).takeWhile p = x.takeWhile p := by
  rw [List.takeWhile_append]
  split
  · next h =>
      rw [List.takeWhile_cons_of_neg (by simp [hq]), List.append_nil, takeWhile_full h]
  · rfl

/-- A space separator blocks the key pattern: matching at a position of the
left part is unaffected by what follows the separator. -/
theorem matchKeyAt_append_sep (x b : Str) :
    matchKeyAt (x ++ ' ' :: b) = matchKeyAt x := by
  unfold matchKeyAt
  rw [takeWhile_append_not (by decide) x b]
  by_cases h2 : 2 ≤ (x.takeWhile isUpperAZ).length
  · rw [if_pos h2, if_pos h2, List.drop_append_of_le_length (takeWhile_length_le x)]
    cases hd : x.drop (x.takeWhile isUpperAZ).length with
    | nil => simp
    | cons c rest =>
        simp only [List.cons_append]
        by_cases hc : c = '-'
        · subst hc
          rw [takeWhile_append_not (by decide) rest b]
        · simp [hc]
  · rw [if_neg h2, if_neg h2]

theorem firstKeyMatch_cons (c : Char) (rest : Str) :
    firstKeyMatch (c :: rest) =
      match matchKeyAt (c :: rest) with
      | some m => some m
      | none => firstKeyMatch rest := rfl

/-- Leftmost matching distributes over a space-separated concatenation. -/
theorem firstKeyMatch_append_sep (a b : Str) :
    firstKeyMatch (a ++ ' ' :: b) = (firstKeyMatch a).orElse (fun _ => firstKeyMatch b) := by
  induction a with
  | nil =>
      have hsp : matchKeyAt (' ' :: b) = none := by
        have := matchKeyAt_append_sep [] b
        simpa using this
      simp only [List.nil_append, firstKeyMatch, hsp]
      rfl
  | cons c a' ih =>
      have hmk : matchKeyAt (c :: (a' ++ ' ' :: b)) = matchKeyAt (c :: a') :=
        matchKeyAt_append_sep (c :: a') b
      rw [List.cons_append, firstKeyMatch_cons, hmk, firstKeyMatch_cons]
      cases matchKeyAt (c :: a') with
      | some m => rfl
      | none => exact ih

/-- The key pattern, applied to an exact key, matches the whole key. -/
theorem matchKeyAt_key {u d : Str}
    (hu : ∀ c ∈ u, isUpperAZ c = true) (hu2 : 2 ≤ u.length)
    (hd : ∀ c ∈ d, isDigit09 c = true) (hd1 : 1 ≤ d.length) :
    matchKeyAt (u ++ '-' :: d) = some (u ++ '-' :: d) := by
  unfold matchKeyAt
  have h1 : (u ++ '-' :: d).takeWhile isUpperAZ = u := by
    rw [takeWhile_append_not (by decide) u d, List.takeWhile_eq_self_iff.mpr hu]
  rw [h1, if_pos hu2]
  simp only [List.drop_left, if_true]
  rw [List.takeWhile_eq_self_iff.mpr hd, if_pos hd1]

theorem firstKeyMatch_key {u d : Str}
    (hu : ∀ c ∈ u, isUpperAZ c = true) (hu2 : 2 ≤ u.length)
    (hd : ∀ c ∈ d, isDigit09 c = true) (hd1 : 1 ≤ d.length) :
    firstKeyMatch (u ++ '-' :: d) = some (u ++ '-' :: d) := by
  cases u with
  | nil => simp at hu2
  | cons c u' =>
      have hmk : matchKeyAt (c :: (u' ++ '-' :: d)) = some ((c :: u') ++ '-' :: d) :=
        matchKeyAt_key hu hu2 hd hd1
      rw [List.cons_append, firstKeyMatch_cons, hmk]
      rfl

/-- C7.  Ticket-key extraction is order-independent across the three
candidate fields and idempotent: when exactly one field carries the single
key `u-d` and the other two carry no match, the concatenated text
`` `${ref} ${headRef} ${title}` `` extracts that key from any of the three
positions; extracting again from the extracted key returns it unchanged; and
an authenticated event with no match in any field performs no tracker or
chat call at all. -/
theorem extractJiraKey_order_independent_idempotent
    (u d f g : Str)
    (hu : ∀ c ∈ u, isUpperAZ c = true) (hu2 : 2 ≤ u.length)
    (hd : ∀ c ∈ d, isDigit09 c = true) (hd1 : 1 ≤ d.length)
    (hf : extractJiraKey f = none) (hg : extractJiraKey g = none) :
    extractJiraKey ((u ++ '-' :: d) ++ ' ' :: (f ++ ' ' :: g)) = some (u ++ '-' :: d) ∧
    extractJiraKey (f ++ ' ' :: ((u ++ '-' :: d) ++ ' ' :: g)) = some (u ++ '-' :: d) ∧
    extractJiraKey (f ++ ' ' :: (g ++ ' ' :: (u ++ '-' :: d))) = some (u ++ '-' :: d) ∧
    extractJiraKey (u ++ '-' :: d) = some (u ++ '-' :: d) ∧
    (∀ (rt act : Option Str) (m : Bool) (url a b c : Str),
      githubKeyText ⟨some a, rt, act, some ⟨b, c, m, url⟩⟩ = a ++ ' ' :: (b ++ ' ' :: c)) ∧
    (∀ (secret host : Str) (env : GithubEnv) (headers : GithubHeaders) (rawBody : Str)
        (p : GithubPayload),
      headers.xHubSignature256 = some (digestHeader secret rawBody) →
      extractJiraKey (githubKeyText p) = none →
      handleGithubEvent secret host env headers rawBody p = .accepted [] none) := by
  have hkey := firstKeyMatch_key hu hu2 hd hd1
  unfold extractJiraKey at hf hg ⊢
  refine ⟨?_, ?_, ?_, hkey, ?_, ?_⟩
  · rw [firstKeyMatch_append_sep, hkey]
    rfl
  · rw [firstKeyMatch_append_sep, hf, firstKeyMatch_append_sep, hkey]
    rfl
  · rw [firstKeyMatch_append_sep, hf, firstKeyMatch_append_sep, hg, hkey]
    rfl
  · intro rt act m url a b c
    simp [githubKeyText, orEmpty]
  · intro secret host env headers rawBody p hsig hnone
    have htb : githubTryBody host env headers.xGithubEvent p = ([], none) := by
      unfold githubTryBody extractJiraKey
      rw [hnone]
    simp only [handleGithubEvent, hsig, digestHeader_isEmpty, Bool.false_eq_true, if_false,
      timingSafeEqual_self, if_true, htb]

/-- C7 witness: the key `ABC-123` is extracted from whichever of the three
fields carries it, re-extraction from `ABC-123` is stable, and a concrete
authenticated event with no key in any field produces no calls. -/
theorem extractJiraKey_order_independent_idempotent_witness :
    extractJiraKey (("ABC".toList ++ '-' :: "123".toList) ++
        ' ' :: ("feature/login".toList ++ ' ' :: "fix stuff".toList)) =
      some ("ABC".toList ++ '-' :: "123".toList) ∧
    extractJiraKey ("feature/login".toList ++
        ' ' :: (("ABC".toList ++ '-' :: "123".toList) ++ ' ' :: "fix stuff".toList)) =
      some ("ABC".toList ++ '-' :: "123".toList) ∧
    extractJiraKey ("feature/login".toList ++
        ' ' :: ("fix stuff".toList ++ ' ' :: ("ABC".toList ++ '-' :: "123".toList))) =
      some ("ABC".toList ++ '-' :: "123".toList) ∧
    extractJiraKey ("ABC".toList ++ '-' :: "123".toList) =
      some ("ABC".toList ++ '-' :: "123".toList) ∧
    handleGithubEvent "sec".toList "example.com".toList
      ⟨fun _ _ => .ok (), fun _ _ => .ok (), fun _ _ => .ok ()⟩
      ⟨some (digestHeader "sec".toList "body".toList), some "create".toList⟩
      "body".toList
      ⟨some "feature/login".toList, some "branch".toList, none,
       some ⟨"feature/login".toList, "fix stuff".toList, false, "https://g/pr/2".toList⟩⟩ =
      .accepted [] none := by
  have T := extractJiraKey_order_independent_idempotent
    "ABC".toList "123".toList "feature/login".toList "fix stuff".toList
    (by decide) (by decide) (by decide) (by decide) (by decide) (by decide)
  exact ⟨T.1, T.2.1, T.2.2.1, T.2.2.2.1,
    T.2.2.2.2.2 "sec".toList "example.com".toList _ _ "body".toList _ rfl (by decide)⟩

end AutomationBackend
